import Mathlib

/-!
Shallow embedding of the chat-app WebSocket server
(`chat-app-backend`, websocket handler module: `initializeWebSocket`,
`handleJoinChat`, `handleChatMessage`, `handleReadReceipt`, `handleClose`,
the heartbeat interval, and the utility functions `sendJson`, `broadcast`,
`broadcastToChat`, `leaveChatRoom`), together with the in-memory stores
from `models/Message.ts`, `models/Chat.ts`, `models/User.ts`.

Modelling conventions:
- JS `Map` objects (`clients`, `chatRooms`) become association lists with
  `Map.set` replace-or-append semantics (`mapSet`), `Map.delete`
  (`mapDelete`) and `Map.get` (`mapGet`).  JS `Set` of strings becomes a
  duplicate-free insertion-ordered list (`setAdd`).
- Each live socket (`WebSocketWithAuth`) is a `Conn` record addressed by a
  numeric connection id; `readyState === OPEN` is the `isOpen` flag and a
  `ws.close(code, reason)` call is recorded in `closedWith`.
- `Date` values are abstracted to `Nat` instants passed in by the caller;
  the random message id from `Date.now()`/`Math.random()` is passed in as
  the `newId` argument.
- `jwt.verify` is external; its three observable outcomes (missing token,
  verification throw, decoded id) are the `TokenCheck` parameter.
- Every event the server writes to a socket (`ws.send`, and `ws.ping` from
  the heartbeat) is appended to an `outbox` trace of (connection id, event).
-/

namespace ChatApp

/-- JS `Map.get`: first entry with the given key. -/
def mapGet {α β : Type} [DecidableEq α] (m : List (α × β)) (k : α) : Option β :=
  match m with
  | [] => none
  | p :: rest => if p.1 = k then some p.2 else mapGet rest k

/-- JS `Map.set`: replace the entry for the key, or append a new one. -/
def mapSet {α β : Type} [DecidableEq α] (m : List (α × β)) (k : α) (v : β) : List (α × β) :=
  match m with
  | [] => [(k, v)]
  | p :: rest => if p.1 = k then (k, v) :: rest else p :: mapSet rest k v

/-- JS `Map.delete`. -/
def mapDelete {α β : Type} [DecidableEq α] (m : List (α × β)) (k : α) : List (α × β) :=
  match m with
  | [] => []
  | p :: rest => if p.1 = k then mapDelete rest k else p :: mapDelete rest k

/-- In-place mutation of the value stored under a key (JS object mutation
through a `Map.get` reference). -/
def mapUpdate {α β : Type} [DecidableEq α] (m : List (α × β)) (k : α) (f : β → β) :
    List (α × β) :=
  match m with
  | [] => []
  | p :: rest => if p.1 = k then (p.1, f p.2) :: rest else p :: mapUpdate rest k f

/-- JS `Set.add` on the list representation: append if not already present. -/
def setAdd (s : List String) (x : String) : List String :=
  if x ∈ s then s else s ++ [x]

/-- In-place mutation of the first list element satisfying a test
(JS `Array.find` followed by mutation of the found object). -/
def updateWhere {α : Type} (l : List α) (q : α → Bool) (f : α → α) : List α :=
  match l with
  | [] => []
  | x :: rest => if q x then f x :: rest else x :: updateWhere rest q f

/-- JS `Array.findIndex`, with `-1` rendered as `none`. -/
def findIdx {α : Type} (p : α → Bool) : List α → Option Nat
  | [] => none
  | x :: xs => if p x then some 0 else (findIdx p xs).map (· + 1)

/-- `status` field of `IMessage` (`'sent' | 'delivered' | 'read'`). -/
inductive MsgStatus
  | sent
  | delivered
  | read
deriving DecidableEq, Repr

/-- `IMessage` from `models/Message.ts` (in-memory store entry). -/
structure IMessage where
  _id : String
  sender : String
  content : String
  chatId : String
  status : MsgStatus
  timestamp : Nat
  readBy : Option (List String)
deriving DecidableEq, Repr

/-- `IChat` from `models/Chat.ts` (fields the websocket module reads/writes). -/
structure IChat where
  _id : String
  participants : List String
  updatedAt : Nat
deriving DecidableEq, Repr

/-- `IUser` from `models/User.ts` (fields the websocket module reads). -/
structure IUser where
  _id : String
  username : String
deriving DecidableEq, Repr

/-- `WebSocketWithAuth`: one socket with the per-connection fields the
handler writes (`isAlive`, `userId`, `username`, `currentChatId`), plus
the transport facts the code observes: `isOpen` is
`readyState === WebSocket.OPEN`, and `closedWith` records the
`(code, reason)` of a `ws.close(code, reason)` call. -/
structure Conn where
  isAlive : Bool
  userId : Option String
  username : Option String
  currentChatId : Option String
  isOpen : Bool
  closedWith : Option (Nat × String)
deriving DecidableEq, Repr

/-- A freshly accepted, unauthenticated socket. -/
def Conn.fresh : Conn :=
  { isAlive := false, userId := none, username := none, currentChatId := none,
    isOpen := true, closedWith := none }

/-- Server-to-client wire events (`sendJson` payloads), plus the heartbeat
`ws.ping()` transport frame. -/
inductive SEvent
  | authSuccess (userId username : String)
  | onlineUsers (userIds : List String)
  | userStatus (userId : String) (online : Bool)
  | joinedChat (chatId : String)
  | receiveMessage (id sender content : String) (timestamp : Nat)
      (status : MsgStatus) (chatId : String)
  | messageStatusUpdate (messageId chatId : String) (status : MsgStatus)
      (readerId : Option String)
  | typingEvent (userId username chatId : String) (isTyping : Bool)
  | errorEvent (message : String)
  | ping
deriving DecidableEq, Repr

/-- The whole mutable server state: the sockets known to the server
(`wss.clients`), the module-level maps `clients` (userId → socket) and
`chatRooms` (chatId → member set), the in-memory stores `messages`,
`chats`, `users`, and the trace of everything written to sockets. -/
structure SrvState where
  conns : List (Nat × Conn)
  clients : List (String × Nat)
  chatRooms : List (String × List String)
  messages : List IMessage
  chats : List IChat
  users : List IUser
  outbox : List (Nat × SEvent)
deriving DecidableEq, Repr

/-- Lookup of a socket by connection id. -/
def getConn (s : SrvState) (cid : Nat) : Option Conn :=
  mapGet s.conns cid

/-- Mutation of the socket object with the given connection id. -/
def updateConn (s : SrvState) (cid : Nat) (f : Conn → Conn) : SrvState :=
  { s with conns := mapUpdate s.conns cid f }

/-- `ws.close(code, reason)`. -/
def closeConn (s : SrvState) (cid : Nat) (code : Nat) (reason : String) : SrvState :=
  updateConn s cid (fun c => { c with isOpen := false, closedWith := some (code, reason) })

/-- Utility `sendJson(ws, data)`: write the event iff the socket is OPEN. -/
def sendJson (s : SrvState) (cid : Nat) (ev : SEvent) : SrvState :=
  match getConn s cid with
  | some c => if c.isOpen then { s with outbox := s.outbox ++ [(cid, ev)] } else s
  | none => s

/-- Utility `broadcast(senderWs, data)`: iterate the `clients` map and send
to every registered socket other than the sender itself. -/
def broadcast (s : SrvState) (senderCid : Nat) (ev : SEvent) : SrvState :=
  s.clients.foldl (fun acc p => if p.2 = senderCid then acc else sendJson acc p.2 ev) s

/-- Utility `broadcastToChat(chatId, data, senderUserId?, requireOnline)`:
iterate the room's member set; skip the sender when `requireOnline` is set
(the exact condition of the source: `senderUserId && userId === senderUserId
&& requireOnline`; `senderUserId` is a user id, hence non-empty, at every
call site); deliver only to members with an OPEN registered socket. -/
def broadcastToChat (s : SrvState) (chatId : String) (ev : SEvent)
    (senderUserId : Option String) (requireOnline : Bool) : SrvState :=
  match mapGet s.chatRooms chatId with
  | none => s
  | some members =>
      members.foldl (fun acc uid =>
        if senderUserId = some uid ∧ requireOnline = true then acc
        else
          match mapGet acc.clients uid with
          | some rcid => sendJson acc rcid ev
          | none => acc) s

/-- Utility `leaveChatRoom(userId, chatId)` acting on the `chatRooms` map. -/
def leaveChatRoom (rooms : List (String × List String)) (userId chatId : String) :
    List (String × List String) :=
  match mapGet rooms chatId with
  | none => rooms
  | some members =>
      let members2 := members.filter (fun u => ¬ u = userId)
      if members2.length = 0 then mapDelete rooms chatId
      else mapSet rooms chatId members2

/-- `handleJoinChat(ws, chatId)`.  Note the source order: the socket first
leaves its previously focused room (when different), and only then is the
participant check against the Conversation Store performed. -/
def handleJoinChat (s : SrvState) (cid : Nat) (chatId : Option String) : SrvState :=
  match getConn s cid with
  | none => s
  | some c =>
    match c.userId, chatId with
    | some u, some chId =>
      if u = "" ∨ chId = "" then s
      else
        let s1 :=
          match c.currentChatId with
          | some prev =>
              if prev ≠ "" ∧ prev ≠ chId then
                { s with chatRooms := leaveChatRoom s.chatRooms u prev }
              else s
          | none => s
        match s1.chats.find? (fun ch => ch._id == chId) with
        | some chat =>
            if u ∈ chat.participants then
              let members := (mapGet s1.chatRooms chId).getD []
              let s2 := { s1 with chatRooms := mapSet s1.chatRooms chId (setAdd members u) }
              let s3 := updateConn s2 cid (fun cc => { cc with currentChatId := some chId })
              sendJson s3 cid (SEvent.joinedChat chId)
            else
              sendJson s1 cid (SEvent.errorEvent ("Not authorized for chat " ++ chId))
        | none => sendJson s1 cid (SEvent.errorEvent ("Not authorized for chat " ++ chId))
    | _, _ => s

/-- Payload of a `chat_message` client event. -/
structure ChatMsgPayload where
  chatId : String
  content : String
deriving DecidableEq, Repr

/-- `handleChatMessage(ws, payload)`.  `newId` stands for the generated
`msg-${Date.now()}-${random}` id and `now` for `new Date()`. -/
def handleChatMessage (s : SrvState) (cid : Nat) (payload : Option ChatMsgPayload)
    (newId : String) (now : Nat) : SrvState :=
  match getConn s cid with
  | none => s
  | some c =>
    match c.userId, payload with
    | some u, some p =>
      if u = "" ∨ p.chatId = "" ∨ p.content = "" then s
      else if ¬ c.currentChatId = some p.chatId then
        sendJson s cid (SEvent.errorEvent "Must join chat before sending message")
      else
        match s.chats.find? (fun ch => ch._id == p.chatId) with
        | none => sendJson s cid (SEvent.errorEvent ("Not authorized for chat " ++ p.chatId))
        | some chat =>
            if u ∈ chat.participants then
              let newMessage : IMessage :=
                { _id := newId, sender := u, content := p.content, chatId := p.chatId,
                  status := MsgStatus.sent, timestamp := now, readBy := some [u] }
              let s1 := { s with
                            messages := s.messages ++ [newMessage],
                            chats := updateWhere s.chats (fun ch => ch._id == p.chatId)
                                       (fun ch => { ch with updatedAt := now }) }
              let s2 := broadcastToChat s1 p.chatId
                          (SEvent.receiveMessage newId u p.content now MsgStatus.sent p.chatId)
                          none false
              broadcastToChat s2 p.chatId
                (SEvent.messageStatusUpdate newId p.chatId MsgStatus.delivered none)
                (some u) true
            else
              sendJson s cid (SEvent.errorEvent ("Not authorized for chat " ++ p.chatId))
    | _, _ => s

/-- Payload of a `read_receipt` client event. -/
structure ReadReceiptPayload where
  messageId : String
  senderId : String
  chatId : String
deriving DecidableEq, Repr

/-- The `messages.findIndex` test of `handleReadReceipt`. -/
def receiptPred (p : ReadReceiptPayload) (m : IMessage) : Bool :=
  m._id == p.messageId && m.chatId == p.chatId

/-- `handleReadReceipt(ws, payload)`.  The status update is addressed to
`clients.get(senderId)` where `senderId` comes from the client payload. -/
def handleReadReceipt (s : SrvState) (cid : Nat) (payload : Option ReadReceiptPayload) :
    SrvState :=
  match getConn s cid with
  | none => s
  | some c =>
    match c.userId, payload with
    | some reader, some p =>
      if reader = "" ∨ p.messageId = "" ∨ p.senderId = "" ∨ p.chatId = "" then s
      else
        match findIdx (receiptPred p) s.messages with
        | none => s
        | some i =>
          match s.messages[i]? with
          | none => s
          | some m =>
            if m.sender = reader then s
            else
              let rb := m.readBy.getD []
              if reader ∈ rb then s
              else
                let rb2 := rb ++ [reader]
                let allRead :=
                  match s.chats.find? (fun ch => ch._id == p.chatId) with
                  | some chat =>
                      (chat.participants.filter (fun pid => !(pid == m.sender))).all
                        (fun rid => rb2.contains rid)
                  | none => false
                let m2 : IMessage :=
                  { m with readBy := some rb2,
                           status := if allRead then MsgStatus.read else m.status }
                let s1 := { s with messages := s.messages.set i m2 }
                match mapGet s1.clients p.senderId with
                | some senderCid =>
                    sendJson s1 senderCid
                      (SEvent.messageStatusUpdate p.messageId p.chatId m2.status (some reader))
                | none => s1
    | _, _ => s

/-- `handleClose(ws, code, reason)`: for an authenticated socket, leave the
focused room, delete the registry entry for the subject unconditionally,
and broadcast offline presence. -/
def handleClose (s : SrvState) (cid : Nat) : SrvState :=
  match getConn s cid with
  | none => s
  | some c =>
    match c.userId with
    | some u =>
      if u = "" then s
      else
        let s1 :=
          match c.currentChatId with
          | some cur =>
              if cur ≠ "" then { s with chatRooms := leaveChatRoom s.chatRooms u cur }
              else s
          | none => s
        let s2 := { s1 with clients := mapDelete s1.clients u }
        broadcast s2 cid (SEvent.userStatus u false)
    | none => s

/-- Outcome of token extraction and `jwt.verify` for a new connection:
the query parameter is absent/empty, verification threw (malformed,
expired, or bad signature), or it returned a decoded payload id. -/
inductive TokenCheck
  | missing
  | throws
  | valid (id : String)
deriving DecidableEq, Repr

/-- Transport accept: a fresh socket appears in `wss.clients`. -/
def acceptConn (s : SrvState) (cid : Nat) : SrvState :=
  { s with conns := mapSet s.conns cid Conn.fresh }

/-- The `wss.on('connection')` callback of `initializeWebSocket`.
Missing token: close(1008, "Token required").  Verification throw: the
`catch` block of the source is empty, so nothing at all happens.  Valid
token with unknown user: close(1008, ...).  Otherwise the socket is
authenticated, `clients.set` replaces any existing entry for the user
(the `if (clients.has(ws.userId))` duplicate branch of the source has an
empty body), and the welcome events and presence broadcast are sent. -/
def handleConnection (s : SrvState) (cid : Nat) (tc : TokenCheck) : SrvState :=
  match getConn s cid with
  | none => s
  | some _ =>
    match tc with
    | TokenCheck.missing => closeConn s cid 1008 "Token required"
    | TokenCheck.throws => s
    | TokenCheck.valid decodedId =>
      match s.users.find? (fun uu => uu._id == decodedId) with
      | none => closeConn s cid 1008 "Invalid token: User not found"
      | some user =>
        let s1 := updateConn s cid (fun c =>
          { c with userId := some user._id, username := some user.username, isAlive := true })
        let s2 := { s1 with clients := mapSet s1.clients user._id cid }
        let s3 := sendJson s2 cid (SEvent.authSuccess user._id user.username)
        let s4 := sendJson s3 cid (SEvent.onlineUsers (s3.clients.map Prod.fst))
        broadcast s4 cid (SEvent.userStatus user._id true)

/-- One socket's share of the 30-second heartbeat interval: skip sockets
with no authenticated user; terminate dead ones after room/registry/presence
cleanup; otherwise clear `isAlive` and ping. -/
def heartbeatStep (s : SrvState) (cid : Nat) : SrvState :=
  match getConn s cid with
  | none => s
  | some c =>
    match c.userId with
    | none => s
    | some u =>
      if u = "" then s
      else if c.isAlive = false then
        let s1 :=
          match c.currentChatId with
          | some cur =>
              if cur ≠ "" then { s with chatRooms := leaveChatRoom s.chatRooms u cur }
              else s
          | none => s
        let s2 := { s1 with clients := mapDelete s1.clients u }
        let s3 := broadcast s2 cid (SEvent.userStatus u false)
        updateConn s3 cid (fun cc => { cc with isOpen := false })
      else
        let s1 := updateConn s cid (fun cc => { cc with isAlive := false })
        { s1 with outbox := s1.outbox ++ [(cid, SEvent.ping)] }

/-- One firing of the heartbeat `setInterval`: `wss.clients.forEach`. -/
def heartbeatTick (s : SrvState) : SrvState :=
  (s.conns.map Prod.fst).foldl heartbeatStep s

/-- `pong` listener: `ws.isAlive = true`. -/
def handlePong (s : SrvState) (cid : Nat) : SrvState :=
  updateConn s cid (fun c => { c with isAlive := true })

/-- Rank of a delivery state in the order sent → delivered → read. -/
def statusRank : MsgStatus → Nat
  | MsgStatus.sent => 0
  | MsgStatus.delivered => 1
  | MsgStatus.read => 2

/-! Concrete states used to evaluate the handlers on small inputs. -/

/-- An authenticated, open socket for user `u` focused on `ch`. -/
def authedConn (u : String) (ch : Option String) : Conn :=
  { isAlive := true, userId := some u, username := some u, currentChatId := ch,
    isOpen := true, closedWith := none }

/-- User `u1` is focused on chat `a`; chat `b` exists but `u1` is not a
participant of it. -/
def joinS : SrvState :=
  { conns := [(1, authedConn "u1" (some "a"))], clients := [("u1", 1)],
    chatRooms := [("a", ["u1"])], messages := [],
    chats := [⟨"a", ["u1"], 0⟩, ⟨"b", ["u2"], 0⟩],
    users := [⟨"u1", "u1"⟩, ⟨"u2", "u2"⟩], outbox := [] }

/-- Group chat `g` with participants `A`, `B`, `C`, all online and focused
on `g`. -/
def groupS : SrvState :=
  { conns := [(1, authedConn "A" (some "g")), (2, authedConn "B" (some "g")),
              (3, authedConn "C" (some "g"))],
    clients := [("A", 1), ("B", 2), ("C", 3)],
    chatRooms := [("g", ["A", "B", "C"])], messages := [],
    chats := [⟨"g", ["A", "B", "C"], 0⟩],
    users := [⟨"A", "A"⟩, ⟨"B", "B"⟩, ⟨"C", "C"⟩], outbox := [] }

/-- `A` sends "hi" into `g`. -/
def groupSent : SrvState := handleChatMessage groupS 1 (some ⟨"g", "hi"⟩) "m1" 5

/-- `B` then issues a read receipt for `m1` (with `C` still unread). -/
def groupRead : SrvState := handleReadReceipt groupSent 2 (some ⟨"m1", "A", "g"⟩)

/-- Base store for the duplicate-connection run: one user `u`, one chat `c`
with `u` as participant, no sockets yet. -/
def dupBase : SrvState :=
  { conns := [], clients := [], chatRooms := [], messages := [],
    chats := [⟨"c", ["u"], 0⟩], users := [⟨"u", "u"⟩], outbox := [] }

/-- Socket 1 authenticates as `u` and joins chat `c`. -/
def dupS1 : SrvState :=
  handleJoinChat (handleConnection (acceptConn dupBase 1) 1 (TokenCheck.valid "u")) 1 (some "c")

/-- A second socket (id 2) then authenticates as the same user `u`. -/
def dupS2 : SrvState := handleConnection (acceptConn dupS1 2) 2 (TokenCheck.valid "u")

/-- The superseded socket 1 then submits a `chat_message`. -/
def dupS3 : SrvState := handleChatMessage dupS2 1 (some ⟨"c", "hey"⟩) "m2" 7

/-- Registry state for the stale-close run: sockets 1 and 2 both carry
`userId = u`, and the registry maps `u` to the newer socket 2. -/
def staleS : SrvState :=
  { conns := [(1, authedConn "u" none), (2, authedConn "u" none)],
    clients := [("u", 2)], chatRooms := [], messages := [],
    chats := [], users := [⟨"u", "u"⟩], outbox := [] }

/-- A single freshly accepted, not yet authenticated socket. -/
def freshS : SrvState :=
  { conns := [(1, Conn.fresh)], clients := [], chatRooms := [], messages := [],
    chats := [], users := [⟨"u", "u"⟩], outbox := [] }

/-- Store for the stale-focus run: users `u`, `v`, chat `c` with both as
participants, two sockets not yet authenticated. -/
def ghostS0 : SrvState :=
  { conns := [(1, Conn.fresh), (2, Conn.fresh)], clients := [], chatRooms := [],
    messages := [], chats := [⟨"c", ["u", "v"], 0⟩],
    users := [⟨"u", "u"⟩, ⟨"v", "v"⟩], outbox := [] }

/-- Socket 1 authenticates as `u` and joins `c`. -/
def ghostS1 : SrvState :=
  handleJoinChat (handleConnection ghostS0 1 (TokenCheck.valid "u")) 1 (some "c")

/-- Socket 2 authenticates as `u` as well and also joins `c`. -/
def ghostS2 : SrvState :=
  handleJoinChat (handleConnection ghostS1 2 (TokenCheck.valid "u")) 2 (some "c")

/-- Socket 2 closes: its cleanup removes `u` from room `c`. -/
def ghostS3 : SrvState := handleClose ghostS2 2

/-- Socket 1, whose `currentChatId` is still `c`, sends a message. -/
def ghostS4 : SrvState := handleChatMessage ghostS3 1 (some ⟨"c", "hi"⟩) "m3" 9

/-!  Theorems.  First a small toolkit about the map/list operations and the
frame of the send/broadcast utilities, then the claims. -/

theorem mapGet_mapSet_self {α β : Type} [DecidableEq α] (m : List (α × β)) (k : α) (v : β) :
    mapGet (mapSet m k v) k = some v := by
  induction m with
  | nil => simp [mapSet, mapGet]
  | cons p rest ih =>
    by_cases h : p.1 = k
    · simp [mapSet, mapGet, h]
    · simp [mapSet, mapGet, h, ih]

theorem mapGet_mapSet_ne {α β : Type} [DecidableEq α] (m : List (α × β)) (k k' : α) (v : β)
    (h : k' ≠ k) : mapGet (mapSet m k v) k' = mapGet m k' := by
  have h' : ¬ k = k' := fun hh => h hh.symm
  induction m with
  | nil => simp [mapSet, mapGet, h']
  | cons p rest ih =>
    by_cases hp : p.1 = k
    · simp [mapSet, mapGet, hp, h']
    · simp [mapSet, mapGet, hp, ih]

theorem mapGet_mapDelete_ne {α β : Type} [DecidableEq α] (m : List (α × β)) (k k' : α)
    (h : k' ≠ k) : mapGet (mapDelete m k) k' = mapGet m k' := by
  have h' : ¬ k = k' := fun hh => h hh.symm
  induction m with
  | nil => rfl
  | cons p rest ih =>
    by_cases hp : p.1 = k
    · simp [mapDelete, mapGet, hp, h', ih]
    · simp [mapDelete, mapGet, hp, ih]

theorem mapGet_mapUpdate_self {α β : Type} [DecidableEq α] (m : List (α × β)) (k : α)
    (f : β → β) (v : β) (h : mapGet m k = some v) :
    mapGet (mapUpdate m k f) k = some (f v) := by
  induction m with
  | nil => simp [mapGet] at h
  | cons p rest ih =>
    by_cases hp : p.1 = k
    · simp [mapGet, hp] at h
      simp [mapUpdate, mapGet, hp, h]
    · simp [mapGet, hp] at h
      simp [mapUpdate, mapGet, hp, ih h]

theorem mapGet_mapUpdate_ne {α β : Type} [DecidableEq α] (m : List (α × β)) (k k' : α)
    (f : β → β) (h : k' ≠ k) : mapGet (mapUpdate m k f) k' = mapGet m k' := by
  have h' : ¬ k = k' := fun hh => h hh.symm
  induction m with
  | nil => rfl
  | cons p rest ih =>
    by_cases hp : p.1 = k
    · simp [mapUpdate, mapGet, hp, h']
    · simp [mapUpdate, mapGet, hp, ih]

theorem mapGet_leaveChatRoom_ne (rooms : List (String × List String)) (u prev chId : String)
    (h : prev ≠ chId) : mapGet (leaveChatRoom rooms u prev) chId = mapGet rooms chId := by
  unfold leaveChatRoom
  cases mapGet rooms prev with
  | none => rfl
  | some members =>
    dsimp only
    split
    · exact mapGet_mapDelete_ne rooms prev chId (fun hh => h hh.symm)
    · exact mapGet_mapSet_ne rooms prev chId _ (fun hh => h hh.symm)

theorem getConn_updateConn_self (s : SrvState) (cid : Nat) (f : Conn → Conn) (c : Conn)
    (h : getConn s cid = some c) : getConn (updateConn s cid f) cid = some (f c) :=
  mapGet_mapUpdate_self s.conns cid f c h

theorem getConn_updateConn_ne (s : SrvState) (cid cid' : Nat) (f : Conn → Conn)
    (h : cid' ≠ cid) : getConn (updateConn s cid f) cid' = getConn s cid' :=
  mapGet_mapUpdate_ne s.conns cid cid' f h

theorem sendJson_frame (s : SrvState) (cid : Nat) (ev : SEvent) :
    (sendJson s cid ev).conns = s.conns ∧
    (sendJson s cid ev).clients = s.clients ∧
    (sendJson s cid ev).chatRooms = s.chatRooms ∧
    (sendJson s cid ev).messages = s.messages ∧
    (sendJson s cid ev).chats = s.chats ∧
    ∃ t, (sendJson s cid ev).outbox = s.outbox ++ t ∧ ∀ e ∈ t, e = (cid, ev) := by
  unfold sendJson
  cases getConn s cid with
  | none => exact ⟨rfl, rfl, rfl, rfl, rfl, [], by simp, by simp⟩
  | some c =>
    dsimp only
    split
    · exact ⟨rfl, rfl, rfl, rfl, rfl, [(cid, ev)], rfl, by simp⟩
    · exact ⟨rfl, rfl, rfl, rfl, rfl, [], by simp, by simp⟩

theorem foldl_proj_pres {β X : Type} (proj : SrvState → X) (step : SrvState → β → SrvState)
    (h : ∀ a b, proj (step a b) = proj a) :
    ∀ (l : List β) (s : SrvState), proj (l.foldl step s) = proj s := by
  intro l
  induction l with
  | nil => intro s; rfl
  | cons x xs ih => intro s; simp only [List.foldl_cons]; rw [ih, h]

theorem foldl_outbox_ext {β : Type} (step : SrvState → β → SrvState)
    (Q : Nat × SEvent → Prop)
    (h : ∀ a b, ∃ t, (step a b).outbox = a.outbox ++ t ∧ ∀ e ∈ t, Q e) :
    ∀ (l : List β) (s : SrvState),
      ∃ t, (l.foldl step s).outbox = s.outbox ++ t ∧ ∀ e ∈ t, Q e := by
  intro l
  induction l with
  | nil => intro s; exact ⟨[], by simp, by simp⟩
  | cons x xs ih =>
    intro s
    obtain ⟨t1, h1, hq1⟩ := h s x
    obtain ⟨t2, h2, hq2⟩ := ih (step s x)
    refine ⟨t1 ++ t2, ?_, ?_⟩
    · simp only [List.foldl_cons, h2, h1, List.append_assoc]
    · exact fun e he => (List.mem_append.mp he).elim (hq1 e) (hq2 e)

theorem foldl_sendJson_frame {β : Type} (ev : SEvent) (step : SrvState → β → SrvState)
    (h : ∀ a b, step a b = a ∨ ∃ cid, step a b = sendJson a cid ev) :
    ∀ (l : List β) (s : SrvState),
      (l.foldl step s).conns = s.conns ∧
      (l.foldl step s).clients = s.clients ∧
      (l.foldl step s).chatRooms = s.chatRooms ∧
      (l.foldl step s).messages = s.messages ∧
      (l.foldl step s).chats = s.chats ∧
      ∃ t, (l.foldl step s).outbox = s.outbox ++ t ∧ ∀ e ∈ t, e.2 = ev := by
  intro l
  induction l with
  | nil => intro s; exact ⟨rfl, rfl, rfl, rfl, rfl, [], by simp, by simp⟩
  | cons b bs ih =>
    intro s
    have h1 : (step s b).conns = s.conns ∧ (step s b).clients = s.clients ∧
        (step s b).chatRooms = s.chatRooms ∧ (step s b).messages = s.messages ∧
        (step s b).chats = s.chats ∧
        ∃ t, (step s b).outbox = s.outbox ++ t ∧ ∀ e ∈ t, e.2 = ev := by
      rcases h s b with hb | ⟨cid, hb⟩
      · rw [hb]; exact ⟨rfl, rfl, rfl, rfl, rfl, [], by simp, by simp⟩
      · rw [hb]
        obtain ⟨f1, f2, f3, f4, f5, t, ht, hq⟩ := sendJson_frame s cid ev
        exact ⟨f1, f2, f3, f4, f5, t, ht, fun e he => by rw [hq e he]⟩
    obtain ⟨f1, f2, f3, f4, f5, t1, ht1, hq1⟩ := h1
    obtain ⟨g1, g2, g3, g4, g5, t2, ht2, hq2⟩ := ih (step s b)
    refine ⟨?_, ?_, ?_, ?_, ?_, t1 ++ t2, ?_, ?_⟩
    · simp only [List.foldl_cons]; rw [g1, f1]
    · simp only [List.foldl_cons]; rw [g2, f2]
    · simp only [List.foldl_cons]; rw [g3, f3]
    · simp only [List.foldl_cons]; rw [g4, f4]
    · simp only [List.foldl_cons]; rw [g5, f5]
    · simp only [List.foldl_cons]; rw [ht2, ht1, List.append_assoc]
    · exact fun e he => (List.mem_append.mp he).elim (hq1 e) (hq2 e)

theorem broadcast_frame (s : SrvState) (x : Nat) (ev : SEvent) :
    (broadcast s x ev).conns = s.conns ∧
    (broadcast s x ev).clients = s.clients ∧
    (broadcast s x ev).chatRooms = s.chatRooms ∧
    (broadcast s x ev).messages = s.messages ∧
    (broadcast s x ev).chats = s.chats ∧
    ∃ t, (broadcast s x ev).outbox = s.outbox ++ t ∧ ∀ e ∈ t, e.2 = ev := by
  unfold broadcast
  refine foldl_sendJson_frame ev _ (fun a b => ?_) s.clients s
  by_cases hb : b.2 = x
  · rw [if_pos hb]; exact Or.inl rfl
  · rw [if_neg hb]; exact Or.inr ⟨b.2, rfl⟩

theorem broadcastToChat_frame (s : SrvState) (chId : String) (ev : SEvent)
    (su : Option String) (ro : Bool) :
    (broadcastToChat s chId ev su ro).conns = s.conns ∧
    (broadcastToChat s chId ev su ro).clients = s.clients ∧
    (broadcastToChat s chId ev su ro).chatRooms = s.chatRooms ∧
    (broadcastToChat s chId ev su ro).messages = s.messages ∧
    (broadcastToChat s chId ev su ro).chats = s.chats ∧
    ∃ t, (broadcastToChat s chId ev su ro).outbox = s.outbox ++ t ∧ ∀ e ∈ t, e.2 = ev := by
  unfold broadcastToChat
  cases mapGet s.chatRooms chId with
  | none => exact ⟨rfl, rfl, rfl, rfl, rfl, [], by simp, by simp⟩
  | some members =>
    refine foldl_sendJson_frame ev _ (fun a b => ?_) members s
    by_cases hb : su = some b ∧ ro = true
    · rw [if_pos hb]; exact Or.inl rfl
    · rw [if_neg hb]
      cases mapGet a.clients b with
      | none => exact Or.inl rfl
      | some rcid => exact Or.inr ⟨rcid, rfl⟩

theorem get?_mem {α : Type} : ∀ (l : List α) (i : Nat) (a : α), l[i]? = some a → a ∈ l := by
  intro l
  induction l with
  | nil => intro i a h; simp at h
  | cons x xs ih =>
    intro i a h
    cases i with
    | zero => simp at h; simp [h]
    | succ j =>
      simp only [List.getElem?_cons_succ] at h
      exact List.mem_cons_of_mem x (ih j a h)

theorem get?_append_left {α : Type} :
    ∀ (l l2 : List α) (j : Nat), j < l.length → (l ++ l2)[j]? = l[j]? := by
  intro l
  induction l with
  | nil => intro l2 j h; simp at h
  | cons x xs ih =>
    intro l2 j h
    cases j with
    | zero => simp
    | succ i =>
      simp only [List.cons_append, List.getElem?_cons_succ]
      exact ih l2 i (by simpa using h)

theorem get?_set_self {α : Type} (a : α) :
    ∀ (l : List α) (i : Nat), i < l.length → (l.set i a)[i]? = some a := by
  intro l
  induction l with
  | nil => intro i h; simp at h
  | cons x xs ih =>
    intro i h
    cases i with
    | zero => simp
    | succ j =>
      simp only [List.set_cons_succ, List.getElem?_cons_succ]
      exact ih j (by simpa using h)

theorem get?_set_ne {α : Type} (a : α) :
    ∀ (l : List α) (i j : Nat), i ≠ j → (l.set i a)[j]? = l[j]? := by
  intro l
  induction l with
  | nil => intro i j _; simp
  | cons x xs ih =>
    intro i j hne
    cases i with
    | zero =>
      cases j with
      | zero => exact absurd rfl hne
      | succ j2 => simp
    | succ i2 =>
      cases j with
      | zero => simp
      | succ j2 =>
        simp only [List.set_cons_succ, List.getElem?_cons_succ]
        exact ih i2 j2 (fun hh => hne (by rw [hh]))

theorem findIdx_lt_length {α : Type} (p : α → Bool) :
    ∀ (l : List α) (i : Nat), findIdx p l = some i → i < l.length := by
  intro l
  induction l with
  | nil => intro i h; simp [findIdx] at h
  | cons x xs ih =>
    intro i h
    simp only [findIdx] at h
    split at h
    · cases h; simp
    · cases hx : findIdx p xs with
      | none => rw [hx] at h; simp at h
      | some j =>
        rw [hx] at h
        simp only [Option.map_some'] at h
        cases h
        simpa using Nat.succ_lt_succ (ih j hx)

theorem findIdx_get {α : Type} (p : α → Bool) :
    ∀ (l : List α) (i : Nat), findIdx p l = some i →
      ∃ m, l[i]? = some m ∧ p m = true := by
  intro l
  induction l with
  | nil => intro i h; simp [findIdx] at h
  | cons x xs ih =>
    intro i h
    simp only [findIdx] at h
    split at h
    · cases h
      exact ⟨x, by simp, by assumption⟩
    · cases hx : findIdx p xs with
      | none => rw [hx] at h; simp at h
      | some j =>
        rw [hx] at h
        simp only [Option.map_some'] at h
        cases h
        obtain ⟨m, hm, hpm⟩ := ih j hx
        exact ⟨m, by simpa using hm, hpm⟩

theorem findIdx_none {α : Type} (p : α → Bool) :
    ∀ (l : List α), (∀ x ∈ l, p x = false) → findIdx p l = none := by
  intro l
  induction l with
  | nil => intro _; rfl
  | cons x xs ih =>
    intro h
    have hx : p x = false := h x (List.mem_cons_self x xs)
    simp only [findIdx, hx]
    simp [ih (fun y hy => h y (List.mem_cons_of_mem x hy))]

theorem findIdx_set {α : Type} (p : α → Bool) (a : α) (hpa : p a = true) :
    ∀ (l : List α) (i : Nat), findIdx p l = some i → findIdx p (l.set i a) = some i := by
  intro l
  induction l with
  | nil => intro i h; simp [findIdx] at h
  | cons x xs ih =>
    intro i h
    simp only [findIdx] at h
    split at h
    · cases h
      simp [List.set_cons_zero, findIdx, hpa]
    · cases hx : findIdx p xs with
      | none => rw [hx] at h; simp at h
      | some j =>
        rw [hx] at h
        simp only [Option.map_some'] at h
        cases h
        have hneg : ¬ p x = true := by assumption
        simp [List.set_cons_succ, findIdx, hneg, ih j hx]

/-- C1: the claim "when S is not a participant the join fails with
Unauthorized and room membership (every room's member set, including any
room S was previously focused on) is exactly as it was before the call" is
false.  Concretely: `u1`, focused on room `a`, asks to join chat `b` of
which it is not a participant; the join is refused with the error event,
but `u1` has already been removed from room `a` (which, becoming empty, was
deleted), so room membership is not as it was before the call. -/
theorem C1_counterexample :
    (∀ ch ∈ joinS.chats, ch._id = "b" → "u1" ∉ ch.participants) ∧
    (handleJoinChat joinS 1 (some "b")).outbox
      = [(1, SEvent.errorEvent "Not authorized for chat b")] ∧
    joinS.chatRooms = [("a", ["u1"])] ∧
    (handleJoinChat joinS 1 (some "b")).chatRooms = [] := by
  decide

/-- C2: the claim that the observable sequence of delivery states is a
prefix of [sent, delivered, read] and never regresses is false.  In group
chat `g` (participants `A`, `B`, `C`), after `A` sends `m1`, the server
broadcasts a `message_status_update` with status `delivered` (outbox
position 3); `B`'s subsequent read receipt — with `C` still unread — then
sends the sender a `message_status_update` carrying the stored status
`sent` (outbox position 5): a later observation shows an earlier state.
Moreover the stored state is still `sent` (never `delivered`). -/
theorem C2_counterexample :
    groupRead.outbox[3]?
      = some (2, SEvent.messageStatusUpdate "m1" "g" MsgStatus.delivered none) ∧
    groupRead.outbox[5]?
      = some (1, SEvent.messageStatusUpdate "m1" "g" MsgStatus.sent (some "B")) ∧
    groupRead.messages.map IMessage.status = [MsgStatus.sent] := by
  decide

/-- C3: evaluation of the code at the failing input.  With socket 1 open
and registered for user `u`, a second socket 2 authenticates as `u`: the
registry indeed holds exactly the one entry `(u, 2)`, but socket 1 — whose
supersession the source leaves to an empty
`if (clients.has(ws.userId)) { }` stub — is still open, still
authenticated, and a subsequent `chat_message` from it is still processed
and appends a message.  The prior connection does not cease to be live. -/
theorem C3_code_divergence :
    dupS2.clients = [("u", 2)] ∧
    getConn dupS2 1 = some (authedConn "u" (some "c")) ∧
    (authedConn "u" (some "c")).isOpen = true ∧
    (authedConn "u" (some "c")).closedWith = none ∧
    dupS3.messages.length = 1 := by
  decide

/-- C4: the claim that the registry entry is removed only if the stored
connection is the closing connection is false.  The registry maps `u` to
socket 2, yet the close of the stale socket 1 (also bound to `u`) deletes
that entry: `clients.delete(ws.userId)` is unconditional. -/
theorem C4_counterexample :
    mapGet staleS.clients "u" = some 2 ∧
    (handleClose staleS 1).clients = [] := by
  decide

/-- C5: the claim that `readBy` never contains the message's sender is
false at creation: the message appended by `handleChatMessage` is built
with `readBy: [ws.userId]`, i.e. the sender `A` is in its own message's
`readBy` set from the start. -/
theorem C5_counterexample :
    groupSent.messages = [⟨"m1", "A", "hi", "g", MsgStatus.sent, 5, some ["A"]⟩] ∧
    ("A" : String) ∈ ["A"] := by
  decide

/-- C6: evaluation of the code at the failing input.  A connection whose
credential makes `jwt.verify` throw (malformed or expired token) hits the
empty `catch` block: the state is completely unchanged — the socket stays
open with no close code — whereas a missing token does close the socket
with `(1008, "Token required")`.  The claim that every failed handshake
closes the connection with a distinguishable code/reason is violated. -/
theorem C6_code_divergence :
    handleConnection freshS 1 TokenCheck.throws = freshS ∧
    getConn freshS 1 = some Conn.fresh ∧
    Conn.fresh.isOpen = true ∧
    Conn.fresh.closedWith = none ∧
    handleConnection freshS 1 TokenCheck.missing
      = closeConn freshS 1 1008 "Token required" := by
  decide

/-- C7: the claim that a `chat_message` from a sender not focused on the
conversation *per the Room Manager* is rejected with an error, appends no
message and broadcasts nothing is false.  Reachable run: socket 1 (user
`u`) joins `c`; socket 2 (same user) joins `c` and closes, which removes
`u` from room `c`; socket 1's `currentChatId` is still `c`, so its next
`chat_message` passes the focus check, appends a message to the store —
while `u` is a member of no room — and emits no event at all (no error,
and the room has no members to broadcast to). -/
theorem C7_counterexample :
    mapGet ghostS3.chatRooms "c" = none ∧
    (getConn ghostS3 1).map Conn.currentChatId = some (some "c") ∧
    ghostS3.messages.length = 0 ∧
    ghostS4.messages.length = 1 ∧
    ghostS4.outbox = ghostS3.outbox := by
  decide

/-- C4 (amended): when a connection with an authenticated subject closes,
the registry entry for that subject is removed unconditionally — whether or
not the stored connection is the closing one.  A close of a stale,
superseded connection therefore removes the newer registration for the
same subject. -/
theorem C4_amended (s : SrvState) (cid : Nat) (c : Conn) (u : String)
    (hc : getConn s cid = some c) (hu : c.userId = some u) (hne : u ≠ "") :
    (handleClose s cid).clients = mapDelete s.clients u := by
  unfold handleClose
  rw [hc]
  dsimp only
  rw [hu]
  dsimp only
  rw [if_neg hne]
  cases hcur : c.currentChatId with
  | none =>
    dsimp only
    rw [(broadcast_frame _ cid _).2.1]
  | some cur =>
    dsimp only
    by_cases h2 : cur ≠ ""
    · rw [if_pos h2]
      dsimp only
      rw [(broadcast_frame _ cid _).2.1]
    · rw [if_neg h2]
      rw [(broadcast_frame _ cid _).2.1]

/-- Witness for C4 (amended): closing the registered socket 2 of `u`
removes the entry. -/
theorem C4_amended_witness :
    (handleClose staleS 2).clients = mapDelete staleS.clients "u" :=
  C4_amended staleS 2 (authedConn "u" none) "u" (by decide) (by decide) (by decide)

/-- C7 (amended): the "must join first" check of `handleChatMessage` is
against the connection's own `currentChatId` focus, not the Room Manager's
member set: whenever the sending connection's `currentChatId` differs from
the target `chatId`, the message is rejected with the error event and the
state is otherwise untouched (in particular no message is appended and no
broadcast occurs).  When a stale connection's `currentChatId` still equals
the target chat although the Room Manager no longer lists the sender, the
message is appended instead (see the counterexample). -/
theorem C7_amended (s : SrvState) (cid : Nat) (c : Conn) (u : String) (p : ChatMsgPayload)
    (newId : String) (now : Nat)
    (hc : getConn s cid = some c) (hu : c.userId = some u)
    (h1 : u ≠ "") (h2 : p.chatId ≠ "") (h3 : p.content ≠ "")
    (h4 : ¬ c.currentChatId = some p.chatId) :
    handleChatMessage s cid (some p) newId now
      = sendJson s cid (SEvent.errorEvent "Must join chat before sending message") := by
  unfold handleChatMessage
  rw [hc]
  dsimp only
  rw [hu]
  dsimp only
  rw [if_neg (by simp [h1, h2, h3])]
  rw [if_pos h4]

/-- Witness for C7 (amended): `A`, focused on `g`, targets chat `x`. -/
theorem C7_amended_witness :
    handleChatMessage groupS 1 (some ⟨"x", "hi"⟩) "m9" 0
      = sendJson groupS 1 (SEvent.errorEvent "Must join chat before sending message") :=
  C7_amended groupS 1 (authedConn "A" (some "g")) "A" ⟨"x", "hi"⟩ "m9" 0
    (by decide) (by decide) (by decide) (by decide) (by decide) (by decide)

/-- C10: a `read_receipt` whose `messageId`/`chatId` pair matches no stored
message is silently ignored: the state — message store, every `readBy` set,
every delivery state, and the outbox — is exactly unchanged, so no event of
any kind is sent to any client. -/
theorem C10_unknown_message_ignored (s : SrvState) (cid : Nat) (p : ReadReceiptPayload)
    (h : ∀ m ∈ s.messages, receiptPred p m = false) :
    handleReadReceipt s cid (some p) = s := by
  unfold handleReadReceipt
  cases hc : getConn s cid with
  | none => rfl
  | some c =>
    dsimp only
    cases hu : c.userId with
    | none => rfl
    | some reader =>
      dsimp only
      by_cases hg : reader = "" ∨ p.messageId = "" ∨ p.senderId = "" ∨ p.chatId = ""
      · rw [if_pos hg]
      · rw [if_neg hg]
        rw [findIdx_none (receiptPred p) s.messages h]

/-- Witness for C10: a receipt for the unknown id `zz` leaves the state of
the group scenario untouched. -/
theorem C10_witness :
    handleReadReceipt groupSent 2 (some ⟨"zz", "A", "g"⟩) = groupSent :=
  C10_unknown_message_ignored groupSent 2 ⟨"zz", "A", "g"⟩ (by decide)

/-- C5 (amended): `readBy` contains the sender from creation — every
message `handleChatMessage` appends has `readBy = [sender]` — and a
`read_receipt` issued by the sender of the targeted message is a complete
no-op: the state (hence `readBy`, status, and the outbox) is unchanged and
no status broadcast is produced. -/
theorem C5_amended :
    (∀ (s : SrvState) (cid : Nat) (payload : Option ChatMsgPayload) (newId : String)
        (now : Nat) (m : IMessage),
        m ∈ (handleChatMessage s cid payload newId now).messages →
        m ∈ s.messages ∨ m.readBy = some [m.sender]) ∧
    (∀ (s : SrvState) (cid : Nat) (p : ReadReceiptPayload) (c : Conn) (reader : String),
        getConn s cid = some c → c.userId = some reader →
        (∀ m ∈ s.messages, receiptPred p m = true → m.sender = reader) →
        handleReadReceipt s cid (some p) = s) := by
  constructor
  · intro s cid payload newId now m hm
    unfold handleChatMessage at hm
    cases hc : getConn s cid with
    | none => rw [hc] at hm; exact Or.inl hm
    | some c =>
      rw [hc] at hm
      dsimp only at hm
      cases hu : c.userId with
      | none => rw [hu] at hm; exact Or.inl hm
      | some u =>
        rw [hu] at hm
        cases payload with
        | none => exact Or.inl hm
        | some p =>
          dsimp only at hm
          by_cases hg : u = "" ∨ p.chatId = "" ∨ p.content = ""
          · rw [if_pos hg] at hm; exact Or.inl hm
          · rw [if_neg hg] at hm
            by_cases h4 : ¬ c.currentChatId = some p.chatId
            · rw [if_pos h4] at hm
              rw [(sendJson_frame _ _ _).2.2.2.1] at hm
              exact Or.inl hm
            · rw [if_neg h4] at hm
              cases hfind : s.chats.find? (fun ch => ch._id == p.chatId) with
              | none =>
                rw [hfind] at hm
                rw [(sendJson_frame _ _ _).2.2.2.1] at hm
                exact Or.inl hm
              | some chat =>
                rw [hfind] at hm
                dsimp only at hm
                by_cases hpart : u ∈ chat.participants
                · rw [if_pos hpart] at hm
                  rw [(broadcastToChat_frame _ _ _ _ _).2.2.2.1] at hm
                  rw [(broadcastToChat_frame _ _ _ _ _).2.2.2.1] at hm
                  dsimp only at hm
                  rcases List.mem_append.mp hm with h | h
                  · exact Or.inl h
                  · rcases List.mem_singleton.mp h with rfl
                    exact Or.inr rfl
                · rw [if_neg hpart] at hm
                  rw [(sendJson_frame _ _ _).2.2.2.1] at hm
                  exact Or.inl hm
  · intro s cid p c reader hc hu h3
    unfold handleReadReceipt
    rw [hc]
    dsimp only
    rw [hu]
    dsimp only
    by_cases hg : reader = "" ∨ p.messageId = "" ∨ p.senderId = "" ∨ p.chatId = ""
    · rw [if_pos hg]
    · rw [if_neg hg]
      cases hidx : findIdx (receiptPred p) s.messages with
      | none => rfl
      | some i =>
        dsimp only
        cases hmi : s.messages[i]? with
        | none => rfl
        | some m =>
          dsimp only
          have hpm : receiptPred p m = true := by
            obtain ⟨m2, hm2, hp2⟩ := findIdx_get (receiptPred p) s.messages i hidx
            rw [hmi] at hm2
            injection hm2 with he
            rw [he]
            exact hp2
          rw [if_pos (h3 m (get?_mem s.messages i m hmi) hpm)]

/-- Witness for C5 (amended): the message created in the group scenario has
`readBy = [sender]`, and the sender's own receipt for it is a no-op. -/
theorem C5_amended_witness :
    ((⟨"m1", "A", "hi", "g", MsgStatus.sent, 5, some ["A"]⟩ : IMessage) ∈ groupS.messages ∨
      (⟨"m1", "A", "hi", "g", MsgStatus.sent, 5, some ["A"]⟩ : IMessage).readBy
        = some [(⟨"m1", "A", "hi", "g", MsgStatus.sent, 5, some ["A"]⟩ : IMessage).sender]) ∧
    handleReadReceipt groupSent 1 (some ⟨"m1", "A", "g"⟩) = groupSent := by
  constructor
  · exact C5_amended.1 groupS 1 (some ⟨"g", "hi"⟩) "m1" 5
      ⟨"m1", "A", "hi", "g", MsgStatus.sent, 5, some ["A"]⟩ (by decide)
  · exact C5_amended.2 groupSent 1 ⟨"m1", "A", "g"⟩ (authedConn "A" (some "g")) "A"
      (by decide) (by decide) (by decide)

theorem statusRank_le_read (st : MsgStatus) : statusRank st ≤ statusRank MsgStatus.read := by
  cases st <;> simp [statusRank]

/-- C2 (amended): the delivery state stored for each message is monotone —
`handleReadReceipt` never lowers `statusRank` of any stored message, and
`handleChatMessage` never changes an existing message (it only appends).
The stored state, however, steps directly from `sent` to `read`:
`delivered` exists only in the broadcast right after a send, and a read
receipt rebroadcasts the stored state, so the observable event sequence is
not a prefix of [sent, delivered, read] (see the counterexample). -/
theorem C2_amended :
    (∀ (s : SrvState) (cid : Nat) (payload : Option ReadReceiptPayload) (j : Nat)
        (m m2 : IMessage),
        s.messages[j]? = some m →
        (handleReadReceipt s cid payload).messages[j]? = some m2 →
        statusRank m.status ≤ statusRank m2.status) ∧
    (∀ (s : SrvState) (cid : Nat) (payload : Option ChatMsgPayload) (newId : String)
        (now : Nat) (j : Nat),
        j < s.messages.length →
        (handleChatMessage s cid payload newId now).messages[j]? = s.messages[j]?) := by
  constructor
  · intro s cid payload j m m2 hm hm2
    unfold handleReadReceipt at hm2
    cases hc : getConn s cid with
    | none => rw [hc] at hm2; rw [hm] at hm2; cases hm2; exact le_refl _
    | some c =>
      rw [hc] at hm2
      dsimp only at hm2
      cases hu : c.userId with
      | none => rw [hu] at hm2; rw [hm] at hm2; cases hm2; exact le_refl _
      | some reader =>
        rw [hu] at hm2
        cases payload with
        | none => rw [hm] at hm2; cases hm2; exact le_refl _
        | some p =>
          dsimp only at hm2
          by_cases hg : reader = "" ∨ p.messageId = "" ∨ p.senderId = "" ∨ p.chatId = ""
          · rw [if_pos hg] at hm2; rw [hm] at hm2; cases hm2; exact le_refl _
          · rw [if_neg hg] at hm2
            cases hidx : findIdx (receiptPred p) s.messages with
            | none => rw [hidx] at hm2; rw [hm] at hm2; cases hm2; exact le_refl _
            | some i =>
              rw [hidx] at hm2
              dsimp only at hm2
              cases hmi : s.messages[i]? with
              | none => rw [hmi] at hm2; rw [hm] at hm2; cases hm2; exact le_refl _
              | some mi =>
                rw [hmi] at hm2
                dsimp only at hm2
                by_cases hsend : mi.sender = reader
                · rw [if_pos hsend] at hm2; rw [hm] at hm2; cases hm2; exact le_refl _
                · rw [if_neg hsend] at hm2
                  by_cases hrb : reader ∈ mi.readBy.getD []
                  · rw [if_pos hrb] at hm2; rw [hm] at hm2; cases hm2; exact le_refl _
                  · rw [if_neg hrb] at hm2
                    have hite : ∀ (b : Bool),
                        (if b = true then MsgStatus.read else mi.status) = MsgStatus.read ∨
                        (if b = true then MsgStatus.read else mi.status) = mi.status := by
                      intro b
                      by_cases hb : b = true
                      · rw [if_pos hb]; exact Or.inl rfl
                      · rw [if_neg hb]; exact Or.inr rfl
                    have key : ∀ (st : MsgStatus) (l : List IMessage),
                        st = MsgStatus.read ∨ st = mi.status →
                        l = s.messages.set i
                          { mi with
                            readBy := some (mi.readBy.getD [] ++ [reader]),
                            status := st } →
                        l[j]? = some m2 →
                        statusRank m.status ≤ statusRank m2.status := by
                      intro st l hst hl hg2
                      rw [hl] at hg2
                      by_cases hij : i = j
                      · subst hij
                        rw [get?_set_self _ _ _
                          (findIdx_lt_length (receiptPred p) s.messages i hidx)] at hg2
                        rw [hm] at hmi
                        injection hmi with he
                        subst he
                        injection hg2 with he2
                        rw [← he2]
                        dsimp only
                        rcases hst with h | h
                        · rw [h]; exact statusRank_le_read _
                        · rw [h]
                      · rw [get?_set_ne _ _ _ _ hij] at hg2
                        rw [hm] at hg2; cases hg2; exact le_refl _
                    cases hcl : mapGet s.clients p.senderId with
                    | some scid =>
                      rw [hcl] at hm2
                      dsimp only at hm2
                      rw [(sendJson_frame _ _ _).2.2.2.1] at hm2
                      dsimp only at hm2
                      exact key _ _ (hite _) rfl hm2
                    | none =>
                      rw [hcl] at hm2
                      dsimp only at hm2
                      exact key _ _ (hite _) rfl hm2
  · intro s cid payload newId now j hj
    unfold handleChatMessage
    cases hc : getConn s cid with
    | none => rfl
    | some c =>
      dsimp only
      cases hu : c.userId with
      | none => rfl
      | some u =>
        cases payload with
        | none => rfl
        | some p =>
          dsimp only
          by_cases hg : u = "" ∨ p.chatId = "" ∨ p.content = ""
          · rw [if_pos hg]
          · rw [if_neg hg]
            by_cases h4 : ¬ c.currentChatId = some p.chatId
            · rw [if_pos h4]
              rw [(sendJson_frame _ _ _).2.2.2.1]
            · rw [if_neg h4]
              cases hfind : s.chats.find? (fun ch => ch._id == p.chatId) with
              | none => rw [(sendJson_frame _ _ _).2.2.2.1]
              | some chat =>
                dsimp only
                by_cases hpart : u ∈ chat.participants
                · rw [if_pos hpart]
                  rw [(broadcastToChat_frame _ _ _ _ _).2.2.2.1]
                  rw [(broadcastToChat_frame _ _ _ _ _).2.2.2.1]
                  dsimp only
                  exact get?_append_left s.messages _ j hj
                · rw [if_neg hpart]
                  rw [(sendJson_frame _ _ _).2.2.2.1]

/-- Witness for C2 (amended): in the group scenario the stored status of
`m1` does not decrease across `B`'s read receipt, and the send left the
(empty) prefix of older messages untouched. -/
theorem C2_amended_witness :
    statusRank MsgStatus.sent ≤ statusRank MsgStatus.sent :=
  C2_amended.1 groupSent 2 (some ⟨"m1", "A", "g"⟩) 0
    ⟨"m1", "A", "hi", "g", MsgStatus.sent, 5, some ["A"]⟩
    ⟨"m1", "A", "hi", "g", MsgStatus.sent, 5, some ["A", "B"]⟩ (by decide) (by decide)

theorem getConn_sendJson (s : SrvState) (cid cid2 : Nat) (ev : SEvent) :
    getConn (sendJson s cid2 ev) cid = getConn s cid := by
  show mapGet (sendJson s cid2 ev).conns cid = mapGet s.conns cid
  rw [(sendJson_frame s cid2 ev).1]

theorem sendJson_outbox_open (s : SrvState) (cid : Nat) (ev : SEvent) (c : Conn)
    (hc : getConn s cid = some c) (hopen : c.isOpen = true) :
    (sendJson s cid ev).outbox = s.outbox ++ [(cid, ev)] := by
  unfold sendJson
  rw [hc]
  dsimp only
  rw [if_pos hopen]

/-- C1 (amended): for an authenticated subject `u` and a non-empty chat id,
the join succeeds — `u` is added to the target room, the connection's focus
is set, and `joined_chat` is sent — iff the conversation exists in the
store and `u` is one of its participants.  Otherwise the join fails with
the error event, no message is stored, the registry and the *target* room
are untouched — but room membership as a whole is not: if the connection
was focused on a different room, `u` has already been removed from that
prior room before the participant check. -/
theorem C1_amended (s : SrvState) (cid : Nat) (c : Conn) (u chId : String)
    (hc : getConn s cid = some c) (hu : c.userId = some u) (hune : u ≠ "")
    (hchne : chId ≠ "") :
    ((∃ chat, s.chats.find? (fun ch => ch._id == chId) = some chat ∧ u ∈ chat.participants) →
       mapGet (handleJoinChat s cid (some chId)).chatRooms chId
         = some (setAdd ((mapGet s.chatRooms chId).getD []) u) ∧
       (getConn (handleJoinChat s cid (some chId)) cid).map Conn.currentChatId
         = some (some chId) ∧
       (handleJoinChat s cid (some chId)).messages = s.messages ∧
       (handleJoinChat s cid (some chId)).clients = s.clients ∧
       (c.isOpen = true →
         (handleJoinChat s cid (some chId)).outbox
           = s.outbox ++ [(cid, SEvent.joinedChat chId)])) ∧
    ((∀ chat, s.chats.find? (fun ch => ch._id == chId) = some chat → u ∉ chat.participants) →
       (handleJoinChat s cid (some chId)).messages = s.messages ∧
       (handleJoinChat s cid (some chId)).clients = s.clients ∧
       mapGet (handleJoinChat s cid (some chId)).chatRooms chId = mapGet s.chatRooms chId ∧
       (handleJoinChat s cid (some chId)).chatRooms =
         (match c.currentChatId with
          | some prev =>
              if prev ≠ "" ∧ prev ≠ chId then leaveChatRoom s.chatRooms u prev
              else s.chatRooms
          | none => s.chatRooms) ∧
       (c.isOpen = true →
         (handleJoinChat s cid (some chId)).outbox
           = s.outbox ++ [(cid, SEvent.errorEvent ("Not authorized for chat " ++ chId))])) := by
  unfold handleJoinChat
  rw [hc]
  dsimp only
  rw [hu]
  dsimp only
  rw [if_neg (fun h => h.elim hune hchne)]
  cases hcur : c.currentChatId with
  | none =>
    dsimp only
    constructor
    · rintro ⟨chat, hfind, hmem⟩
      rw [hfind]
      dsimp only
      rw [if_pos hmem]
      refine ⟨?_, ?_, ?_, ?_, ?_⟩
      · rw [(sendJson_frame _ _ _).2.2.1]
        dsimp only [updateConn]
        rw [mapGet_mapSet_self]
      · rw [getConn_sendJson]
        dsimp only [getConn, updateConn]
        rw [mapGet_mapUpdate_self _ _ _ c hc]
        rfl
      · rw [(sendJson_frame _ _ _).2.2.2.1]
        rfl
      · rw [(sendJson_frame _ _ _).2.1]
        rfl
      · intro hopen
        have hc2 : getConn { s with chatRooms := (mapSet s.chatRooms chId
            (setAdd ((mapGet s.chatRooms chId).getD []) u)) } cid = some c := hc
        rw [sendJson_outbox_open _ _ _ _ (getConn_updateConn_self _ _ _ c hc2) hopen]
        rfl
    · intro hno
      cases hfind : s.chats.find? (fun ch => ch._id == chId) with
      | none =>
        refine ⟨?_, ?_, ?_, ?_, ?_⟩
        · rw [(sendJson_frame _ _ _).2.2.2.1]
        · rw [(sendJson_frame _ _ _).2.1]
        · rw [(sendJson_frame _ _ _).2.2.1]
        · rw [(sendJson_frame _ _ _).2.2.1]
        · intro hopen
          rw [sendJson_outbox_open _ _ _ c hc hopen]
      | some chat =>
        dsimp only
        rw [if_neg (hno chat hfind)]
        refine ⟨?_, ?_, ?_, ?_, ?_⟩
        · rw [(sendJson_frame _ _ _).2.2.2.1]
        · rw [(sendJson_frame _ _ _).2.1]
        · rw [(sendJson_frame _ _ _).2.2.1]
        · rw [(sendJson_frame _ _ _).2.2.1]
        · intro hopen
          rw [sendJson_outbox_open _ _ _ c hc hopen]
  | some prev =>
    dsimp only
    by_cases hprev : prev ≠ "" ∧ prev ≠ chId
    · rw [if_pos hprev]
      constructor
      · rintro ⟨chat, hfind, hmem⟩
        rw [hfind]
        dsimp only
        rw [if_pos hmem]
        refine ⟨?_, ?_, ?_, ?_, ?_⟩
        · rw [(sendJson_frame _ _ _).2.2.1]
          dsimp only [updateConn]
          rw [mapGet_mapSet_self, mapGet_leaveChatRoom_ne s.chatRooms u prev chId hprev.2]
        · rw [getConn_sendJson]
          dsimp only [getConn, updateConn]
          rw [mapGet_mapUpdate_self _ _ _ c hc]
          rfl
        · rw [(sendJson_frame _ _ _).2.2.2.1]
          rfl
        · rw [(sendJson_frame _ _ _).2.1]
          rfl
        · intro hopen
          have hc2 : getConn { s with chatRooms := (mapSet
              (leaveChatRoom s.chatRooms u prev) chId
              (setAdd ((mapGet (leaveChatRoom s.chatRooms u prev) chId).getD []) u)) } cid
              = some c := hc
          rw [sendJson_outbox_open _ _ _ _ (getConn_updateConn_self _ _ _ c hc2) hopen]
          rfl
      · intro hno
        cases hfind : s.chats.find? (fun ch => ch._id == chId) with
        | none =>
          refine ⟨?_, ?_, ?_, ?_, ?_⟩
          · rw [(sendJson_frame _ _ _).2.2.2.1]
          · rw [(sendJson_frame _ _ _).2.1]
          · rw [(sendJson_frame _ _ _).2.2.1]
            dsimp only
            rw [mapGet_leaveChatRoom_ne s.chatRooms u prev chId hprev.2]
          · rw [(sendJson_frame _ _ _).2.2.1]
            rw [if_pos hprev]
          · intro hopen
            have hc1 : getConn { s with
                chatRooms := (leaveChatRoom s.chatRooms u prev) } cid = some c := hc
            rw [sendJson_outbox_open _ _ _ c hc1 hopen]
        | some chat =>
          dsimp only
          rw [if_neg (hno chat hfind)]
          refine ⟨?_, ?_, ?_, ?_, ?_⟩
          · rw [(sendJson_frame _ _ _).2.2.2.1]
          · rw [(sendJson_frame _ _ _).2.1]
          · rw [(sendJson_frame _ _ _).2.2.1]
            dsimp only
            rw [mapGet_leaveChatRoom_ne s.chatRooms u prev chId hprev.2]
          · rw [(sendJson_frame _ _ _).2.2.1]
            rw [if_pos hprev]
          · intro hopen
            have hc1 : getConn { s with
                chatRooms := (leaveChatRoom s.chatRooms u prev) } cid = some c := hc
            rw [sendJson_outbox_open _ _ _ c hc1 hopen]
    · rw [if_neg hprev]
      constructor
      · rintro ⟨chat, hfind, hmem⟩
        rw [hfind]
        dsimp only
        rw [if_pos hmem]
        refine ⟨?_, ?_, ?_, ?_, ?_⟩
        · rw [(sendJson_frame _ _ _).2.2.1]
          dsimp only [updateConn]
          rw [mapGet_mapSet_self]
        · rw [getConn_sendJson]
          dsimp only [getConn, updateConn]
          rw [mapGet_mapUpdate_self _ _ _ c hc]
          rfl
        · rw [(sendJson_frame _ _ _).2.2.2.1]
          rfl
        · rw [(sendJson_frame _ _ _).2.1]
          rfl
        · intro hopen
          have hc2 : getConn { s with chatRooms := (mapSet s.chatRooms chId
              (setAdd ((mapGet s.chatRooms chId).getD []) u)) } cid = some c := hc
          rw [sendJson_outbox_open _ _ _ _ (getConn_updateConn_self _ _ _ c hc2) hopen]
          rfl
      · intro hno
        cases hfind : s.chats.find? (fun ch => ch._id == chId) with
        | none =>
          refine ⟨?_, ?_, ?_, ?_, ?_⟩
          · rw [(sendJson_frame _ _ _).2.2.2.1]
          · rw [(sendJson_frame _ _ _).2.1]
          · rw [(sendJson_frame _ _ _).2.2.1]
          · rw [(sendJson_frame _ _ _).2.2.1]
            rw [if_neg hprev]
          · intro hopen
            rw [sendJson_outbox_open _ _ _ c hc hopen]
        | some chat =>
          dsimp only
          rw [if_neg (hno chat hfind)]
          refine ⟨?_, ?_, ?_, ?_, ?_⟩
          · rw [(sendJson_frame _ _ _).2.2.2.1]
          · rw [(sendJson_frame _ _ _).2.1]
          · rw [(sendJson_frame _ _ _).2.2.1]
          · rw [(sendJson_frame _ _ _).2.2.1]
            rw [if_neg hprev]
          · intro hopen
            rw [sendJson_outbox_open _ _ _ c hc hopen]

/-- Witness for C1 (amended): `u1` (a participant of chat `a`) rejoins `a`
successfully, and `u1`'s failed join of chat `b` leaves chat `b`'s room
absent. -/
theorem C1_amended_witness :
    mapGet (handleJoinChat joinS 1 (some "b")).chatRooms "b" = mapGet joinS.chatRooms "b" := by
  have h := C1_amended joinS 1 (authedConn "u1" (some "a")) "u1" "b"
    (by decide) (by decide) (by decide) (by decide)
  exact (h.2 (by decide)).2.2.1

theorem getConn_broadcast (s : SrvState) (cid x : Nat) (ev : SEvent) :
    getConn (broadcast s x ev) cid = getConn s cid := by
  show mapGet (broadcast s x ev).conns cid = mapGet s.conns cid
  rw [(broadcast_frame s x ev).1]

/-- Frame of the heartbeat dead-connection cleanup as seen by an unrelated
connection id: its registry entry in `conns` is untouched and every event
appended is a presence update, never a ping. -/
theorem heartbeatDead_frame (S2 : SrvState) (j cid : Nat) (u : String) (c : Conn)
    (hC : getConn S2 cid = some c) (hne : ¬ j = cid) :
    getConn (updateConn (broadcast S2 j (SEvent.userStatus u false)) j
      (fun cc => { cc with isOpen := false })) cid = some c ∧
    ∃ t, (updateConn (broadcast S2 j (SEvent.userStatus u false)) j
        (fun cc => { cc with isOpen := false })).outbox = S2.outbox ++ t ∧
      (cid, SEvent.ping) ∉ t := by
  constructor
  · rw [getConn_updateConn_ne _ _ _ _ (fun hh => hne hh.symm), getConn_broadcast]
    exact hC
  · obtain ⟨t, ht, hq⟩ := (broadcast_frame S2 j (SEvent.userStatus u false)).2.2.2.2.2
    exact ⟨t, ht, fun hmem => by simpa using hq _ hmem⟩

/-- One heartbeat step for socket `j` never touches, pings or closes a
socket `cid` that has no authenticated user bound to it. -/
theorem heartbeatStep_unauth (a : SrvState) (j cid : Nat) (c : Conn)
    (hc : getConn a cid = some c) (hu : c.userId = none) :
    getConn (heartbeatStep a j) cid = some c ∧
    ∃ t, (heartbeatStep a j).outbox = a.outbox ++ t ∧ (cid, SEvent.ping) ∉ t := by
  unfold heartbeatStep
  cases hj : getConn a j with
  | none => exact ⟨hc, [], by simp, by simp⟩
  | some cj =>
    dsimp only
    cases hju : cj.userId with
    | none => exact ⟨hc, [], by simp, by simp⟩
    | some u =>
      have hne : ¬ j = cid := by
        intro he
        rw [he, hc] at hj
        injection hj with hcj
        rw [← hcj] at hju
        rw [hu] at hju
        exact Option.noConfusion hju
      dsimp only
      by_cases hue : u = ""
      · rw [if_pos hue]; exact ⟨hc, [], by simp, by simp⟩
      · rw [if_neg hue]
        by_cases hal : cj.isAlive = false
        · rw [if_pos hal]
          cases hcurj : cj.currentChatId with
          | none =>
            dsimp only
            exact heartbeatDead_frame { a with clients := mapDelete a.clients u }
              j cid u c hc hne
          | some cur =>
            dsimp only
            by_cases hcu : cur ≠ ""
            · rw [if_pos hcu]
              exact heartbeatDead_frame { a with chatRooms := leaveChatRoom a.chatRooms u cur, clients := mapDelete a.clients u } j cid u c hc hne
            · rw [if_neg hcu]
              exact heartbeatDead_frame { a with clients := mapDelete a.clients u }
                j cid u c hc hne
        · rw [if_neg hal]
          refine ⟨?_, [(j, SEvent.ping)], rfl, ?_⟩
          · exact (getConn_updateConn_ne a j cid (fun cc => { cc with isAlive := false })
              (fun hh => hne hh.symm)).trans hc
          · intro hmem
            rw [List.mem_singleton, Prod.mk.injEq] at hmem
            exact hne hmem.1.symm

theorem heartbeatFold_unauth (cid : Nat) (c : Conn) (hu : c.userId = none) :
    ∀ (ids : List Nat) (a : SrvState), getConn a cid = some c →
      getConn (ids.foldl heartbeatStep a) cid = some c ∧
      ∃ t, (ids.foldl heartbeatStep a).outbox = a.outbox ++ t ∧ (cid, SEvent.ping) ∉ t := by
  intro ids
  induction ids with
  | nil => intro a ha; exact ⟨ha, [], by simp, by simp⟩
  | cons j js ih =>
    intro a ha
    obtain ⟨h1, t1, ht1, hn1⟩ := heartbeatStep_unauth a j cid c ha hu
    obtain ⟨h2, t2, ht2, hn2⟩ := ih (heartbeatStep a j) h1
    refine ⟨by simpa using h2, t1 ++ t2, ?_, ?_⟩
    · simp only [List.foldl_cons]
      rw [ht2, ht1, List.append_assoc]
    · intro hmem
      rcases List.mem_append.mp hmem with h | h
      · exact hn1 h
      · exact hn2 h

theorem heartbeatTick_unauth (s : SrvState) (cid : Nat) (c : Conn)
    (hc : getConn s cid = some c) (hu : c.userId = none) :
    getConn (heartbeatTick s) cid = some c ∧
    ∃ t, (heartbeatTick s).outbox = s.outbox ++ t ∧ (cid, SEvent.ping) ∉ t :=
  heartbeatFold_unauth cid c hu (s.conns.map Prod.fst) s hc

/-- C9: the heartbeat interval skips sockets with no authenticated subject
(`if (!ws.userId) return`): across any number of heartbeat firings, such a
socket's record is completely unchanged — it is never pinged, never
terminated, and can stay open indefinitely. -/
theorem C9_heartbeat_skips_unauthenticated (s : SrvState) (cid : Nat) (c : Conn) (n : Nat)
    (hc : getConn s cid = some c) (hu : c.userId = none) :
    getConn (heartbeatTick^[n] s) cid = some c ∧
    ∃ t, (heartbeatTick^[n] s).outbox = s.outbox ++ t ∧ (cid, SEvent.ping) ∉ t := by
  induction n generalizing s with
  | zero =>
    simp only [Function.iterate_zero_apply]
    exact ⟨hc, [], by simp, by simp⟩
  | succ k ihk =>
    rw [Function.iterate_succ_apply]
    obtain ⟨h1, t1, ht1, hn1⟩ := heartbeatTick_unauth s cid c hc hu
    obtain ⟨h2, t2, ht2, hn2⟩ := ihk (heartbeatTick s) h1
    refine ⟨h2, t1 ++ t2, ?_, ?_⟩
    · rw [ht2, ht1, List.append_assoc]
    · intro hmem
      rcases List.mem_append.mp hmem with h | h
      · exact hn1 h
      · exact hn2 h

/-- Witness for C9: the unauthenticated socket 1 survives two heartbeat
firings untouched and unpinged. -/
theorem C9_witness :
    getConn (heartbeatTick^[2] freshS) 1 = some Conn.fresh ∧
    ∃ t, (heartbeatTick^[2] freshS).outbox = freshS.outbox ++ t ∧ (1, SEvent.ping) ∉ t :=
  C9_heartbeat_skips_unauthenticated freshS 1 Conn.fresh 2 (by decide) (by decide)

/-- Case analysis of `handleReadReceipt`: either it leaves the state
unchanged, or it is the "new reader" path, which only replaces the matched
message at its index (with the same id, chat and sender, now listing the
reader in `readBy`) and possibly appends one status event. -/
theorem handleReadReceipt_cases (s : SrvState) (cid : Nat) (pay : Option ReadReceiptPayload) :
    handleReadReceipt s cid pay = s ∨
    ∃ c reader p i m mNew,
      getConn s cid = some c ∧
      c.userId = some reader ∧
      pay = some p ∧
      ¬(reader = "" ∨ p.messageId = "" ∨ p.senderId = "" ∨ p.chatId = "") ∧
      findIdx (receiptPred p) s.messages = some i ∧
      s.messages[i]? = some m ∧
      (handleReadReceipt s cid pay).messages = s.messages.set i mNew ∧
      (handleReadReceipt s cid pay).conns = s.conns ∧
      receiptPred p mNew = true ∧
      mNew.sender = m.sender ∧
      ¬ m.sender = reader ∧
      reader ∈ mNew.readBy.getD [] := by
  unfold handleReadReceipt
  cases hc : getConn s cid with
  | none => exact Or.inl rfl
  | some c =>
    dsimp only
    cases pay with
    | none =>
      cases hu : c.userId with
      | none => exact Or.inl rfl
      | some reader => exact Or.inl rfl
    | some p =>
      cases hu : c.userId with
      | none => exact Or.inl rfl
      | some reader =>
        dsimp only
        by_cases hg : reader = "" ∨ p.messageId = "" ∨ p.senderId = "" ∨ p.chatId = ""
        · rw [if_pos hg]; exact Or.inl rfl
        · rw [if_neg hg]
          cases hidx : findIdx (receiptPred p) s.messages with
          | none => exact Or.inl rfl
          | some i =>
            dsimp only
            cases hmi : s.messages[i]? with
            | none => exact Or.inl rfl
            | some m =>
              dsimp only
              by_cases hsender : m.sender = reader
              · rw [if_pos hsender]; exact Or.inl rfl
              · rw [if_neg hsender]
                by_cases hrb : reader ∈ m.readBy.getD []
                · rw [if_pos hrb]; exact Or.inl rfl
                · rw [if_neg hrb]
                  have hpm : receiptPred p m = true := by
                    obtain ⟨m2, hm2, hp2⟩ := findIdx_get (receiptPred p) s.messages i hidx
                    rw [hmi] at hm2
                    injection hm2 with he
                    rw [he]; exact hp2
                  cases hcl : mapGet s.clients p.senderId with
                  | some scid =>
                    refine Or.inr ⟨c, reader, p, i, m,
                      { m with
                        readBy := some (m.readBy.getD [] ++ [reader]),
                        status :=
                          if (match List.find? (fun ch => ch._id == p.chatId) s.chats with
                              | some chat =>
                                  (List.filter (fun pid => !pid == m.sender)
                                    chat.participants).all
                                    (fun rid => (m.readBy.getD [] ++ [reader]).contains rid)
                              | none => false) = true then MsgStatus.read else m.status },
                      rfl, hu, rfl, hg, hidx, hmi, ?_, ?_, ?_, rfl, hsender, ?_⟩
                    · exact (sendJson_frame _ _ _).2.2.2.1
                    · exact (sendJson_frame _ _ _).1
                    · exact hpm
                    · simp
                  | none =>
                    refine Or.inr ⟨c, reader, p, i, m,
                      { m with
                        readBy := some (m.readBy.getD [] ++ [reader]),
                        status :=
                          if (match List.find? (fun ch => ch._id == p.chatId) s.chats with
                              | some chat =>
                                  (List.filter (fun pid => !pid == m.sender)
                                    chat.participants).all
                                    (fun rid => (m.readBy.getD [] ++ [reader]).contains rid)
                              | none => false) = true then MsgStatus.read else m.status },
                      rfl, hu, rfl, hg, hidx, hmi, rfl, rfl, ?_, rfl, hsender, ?_⟩
                    · exact hpm
                    · simp

/-- C8: `read_receipt` is idempotent — applying the very same receipt a
second time leaves the state (message store, `readBy`, status) exactly as
after the first application and emits no additional event.  This holds
unconditionally for every state, connection and payload, hence in
particular for a non-sender reader whose first receipt was applied. -/
theorem C8_idempotent (s : SrvState) (cid : Nat) (pay : Option ReadReceiptPayload) :
    handleReadReceipt (handleReadReceipt s cid pay) cid pay
      = handleReadReceipt s cid pay := by
  rcases handleReadReceipt_cases s cid pay with h |
    ⟨c, reader, p, i, m, mNew, hc, hu, hp, hg, hidx, hmi, hmsgs, hconns, hpred, hsender,
      hner, hmem⟩
  · rw [h]; exact h
  · subst hp
    set X := handleReadReceipt s cid (some p) with hX
    have hc2 : getConn X cid = some c := by
      show mapGet X.conns cid = some c
      rw [hconns]; exact hc
    have hidx2 : findIdx (receiptPred p) X.messages = some i := by
      rw [hmsgs]; exact findIdx_set (receiptPred p) mNew hpred s.messages i hidx
    have hget2 : X.messages[i]? = some mNew := by
      rw [hmsgs]
      exact get?_set_self mNew s.messages i
        (findIdx_lt_length (receiptPred p) s.messages i hidx)
    unfold handleReadReceipt
    rw [hc2]
    dsimp only
    rw [hu]
    dsimp only
    rw [if_neg hg, hidx2]
    dsimp only
    rw [hget2]
    dsimp only
    rw [if_neg (show ¬ mNew.sender = reader by rw [hsender]; exact hner)]
    rw [if_pos hmem]

end ChatApp
